import Mathlib

/-!
Shallow embedding of `TESTSCRAPER.py` (a Mountain Project web scraper) and
verification of its specification claims.

Modelling conventions:
* An HTML document (the BeautifulSoup tree) is a `Node`: an element with a tag
  name, a list of non-class attributes, a parsed `class` list, and children, or
  a text node.  The BeautifulSoup object itself is the root element and `find`
  style queries search its descendants (excluding the root), as in bs4.
* bs4's `Tag.__bool__` always returns `True` ("a tag is non-None even if it
  has no contents"), so Python `find(...) or find(...)` chains select the
  first non-`None` result; we model them with `Option.orElse`.
* Network access (`requests` inside `get_page`) is modelled by an explicit
  oracle `fetch : String → Option Node`; `none` is a transport failure.
* The pure extractors cannot raise, so the `try/except` in `scrape_route` has
  no failing path in the embedding.
* Python floats are modelled by `ℚ` (exact decimal arithmetic); the claims
  under study do not depend on binary rounding of decimal literals.
-/

namespace Scraper

/-- One node of the parsed HTML tree: an element (tag name, attributes other
than `class`, the parsed class list, children) or a bare text node. -/
inductive Node where
  | elem (tag : String) (attrs : List (String × String)) (classes : List String)
      (children : List Node)
  | text (s : String)

mutual
/-- Structural equality test on nodes (used to locate a node inside the tree
when modelling bs4's parent/sibling pointers). -/
def Node.beq : Node → Node → Bool
  | .elem t a c cs, .elem t' a' c' cs' =>
      t == t' && a == a' && c == c' && Node.beqList cs cs'
  | .text s, .text s' => s == s'
  | _, _ => false

/-- Pointwise structural equality of child lists. -/
def Node.beqList : List Node → List Node → Bool
  | [], [] => true
  | x :: xs, y :: ys => Node.beq x y && Node.beqList xs ys
  | _, _ => false
end

/-- Membership of a node in a list up to structural equality. -/
def memNode (x : Node) (l : List Node) : Bool :=
  l.any (Node.beq x)

/-- Children of a node (text nodes have none). -/
def Node.childrenOf : Node → List Node
  | .elem _ _ _ cs => cs
  | .text _ => []

/-- Tag name of a node; `none` for text nodes (bs4 `NavigableString.name`). -/
def Node.tagOf : Node → Option String
  | .elem t _ _ _ => some t
  | .text _ => none

/-- Attribute lookup (`tag.get(key)` in bs4); `none` for text nodes or a
missing attribute. -/
def Node.attr : Node → String → Option String
  | .elem _ attrs _ _, k => (attrs.lookup k)
  | .text _, _ => none

/-- The parsed `class` attribute of a node (`tag.get('class', [])`). -/
def Node.classesOf : Node → List String
  | .elem _ _ cls _ => cls
  | .text _ => []

mutual
/-- All descendants of a node in document (pre)order, excluding the node
itself — the search space of bs4 `find` / `find_all`. -/
def Node.descendants : Node → List Node
  | .elem _ _ _ cs => Node.descList cs
  | .text _ => []

/-- Pre-order listing of a forest: each root followed by its descendants. -/
def Node.descList : List Node → List Node
  | [] => []
  | c :: cs => c :: (Node.descendants c ++ Node.descList cs)
end

/-- bs4 `soup.find_all(pred)`: matching descendants in document order. -/
def findAll (p : Node → Bool) (soup : Node) : List Node :=
  soup.descendants.filter p

/-- bs4 `soup.find(pred)`: the first matching descendant, if any. -/
def findFirst (p : Node → Bool) (soup : Node) : Option Node :=
  soup.descendants.find? p

mutual
/-- The strings of all text nodes in a subtree, in document order
(bs4 `get_text` gathers these). -/
def Node.texts : Node → List String
  | .elem _ _ _ cs => Node.textsList cs
  | .text s => [s]

/-- Text gathering over a forest. -/
def Node.textsList : List Node → List String
  | [] => []
  | c :: cs => Node.texts c ++ Node.textsList cs
end

/-- Python `str.strip()`: leading and trailing whitespace removed. -/
def pyStrip (s : String) : String :=
  ⟨((s.data.dropWhile Char.isWhitespace).reverse.dropWhile Char.isWhitespace).reverse⟩

/-- bs4 `get_text(strip=True, separator=sep)`: every text fragment is
stripped, whitespace-only fragments are dropped, the rest joined by `sep`. -/
def getTextStrip (sep : String) (n : Node) : String :=
  String.intercalate sep (((Node.texts n).map pyStrip).filter (· ≠ ""))

/-- bs4 `get_text()` with default arguments: plain concatenation. -/
def getTextRaw (n : Node) : String :=
  String.intercalate "" (Node.texts n)

/-- bs4 `elem.find_parent()` (no arguments): the immediate parent.  The tree
carries no parent pointers, so we locate the first node in pre-order (root
included) having `target` among its direct children; for the trees appearing
in this development this is the actual parent. -/
def findParentIn (root target : Node) : Option Node :=
  (root :: root.descendants).find? (fun n => memNode target n.childrenOf)

/-- The siblings following `target` inside the child list of its parent. -/
def siblingsAfter (target : Node) : List Node → List Node
  | [] => []
  | c :: cs => if Node.beq c target then cs else siblingsAfter target cs

/-- bs4 `elem.find_next_sibling()` with no filter: the next sibling tag.
A no-filter search matches tags only, so bare string siblings (e.g. the
whitespace between tags) are skipped. -/
def nextSibling (root target : Node) : Option Node :=
  match findParentIn root target with
  | some p => (siblingsAfter target p.childrenOf).find? (fun n => n.tagOf.isSome)
  | none => none

/-- bs4 matching of a `class_` search string `c` against a tag's multi-valued
class attribute: `c` equals one of the classes, or the whole space-joined
attribute value. -/
def classMatch (c : String) (n : Node) : Bool :=
  (n.classesOf).contains c || (String.intercalate " " n.classesOf == c)

/-- Is `n` an element with the given tag name? -/
def isTag (t : String) (n : Node) : Bool :=
  n.tagOf == some t

/-! ### URL resolution (`urllib.parse.urljoin`), modelled on character lists

Only the URL shapes this scraper handles are supported: no `.`/`..` segment
normalization and no query/fragment merging.  A URL is "absolute" when it
contains the scheme separator `://`. -/

/-- The characters of the scheme separator `"://"`. -/
def schemeSep : List Char := [':', '/', '/']

/-- Is `s` a prefix of `l`? -/
def isPrefOf : List Char → List Char → Bool
  | [], _ => true
  | _ :: _, [] => false
  | a :: as, b :: bs => a == b && isPrefOf as bs

/-- Split `l` at the first occurrence of `sub`, returning the part before and
the part after it. -/
def splitFirst (sub : List Char) : List Char → Option (List Char × List Char)
  | [] => if isPrefOf sub ([] : List Char) then some ([], []) else none
  | c :: rest =>
      if isPrefOf sub (c :: rest) then some ([], (c :: rest).drop sub.length)
      else
        match splitFirst sub rest with
        | some (a, b) => some (c :: a, b)
        | none => none

/-- Directory part of a path: everything up to and including the last `/`;
`"/"` when the path has no slash (resolving against a bare host). -/
def dirOfPath (p : List Char) : List Char :=
  let d := ((p.reverse).dropWhile (· ≠ '/')).reverse
  if d = [] then ['/'] else d

/-- `urljoin` on character lists.  Branches: empty URL keeps the base; a URL
with a scheme stands alone; `//…` keeps only the base's scheme; `/…` keeps
the base's scheme and host; anything else resolves against the base's
directory.  When the base itself has no scheme the input URL is returned
unchanged (a degenerate case the scraper never exercises: its base is
`https://www.mountainproject.com`). -/
def urljoinL (base url : List Char) : List Char :=
  if url = [] then base
  else if (splitFirst schemeSep url).isSome then url
  else
    match splitFirst schemeSep base with
    | none => url
    | some (sch, rest) =>
      if isPrefOf ['/', '/'] url then sch ++ ':' :: url
      else if isPrefOf ['/'] url then
        sch ++ schemeSep ++ (rest.takeWhile (· ≠ '/')) ++ url
      else
        sch ++ schemeSep ++ (rest.takeWhile (· ≠ '/')) ++
          dirOfPath (rest.dropWhile (· ≠ '/')) ++ url

/-- `urllib.parse.urljoin` on strings. -/
def urljoin (base url : String) : String :=
  ⟨urljoinL base.data url.data⟩

/-- A URL is absolute when it contains the scheme separator `://`. -/
def IsAbsoluteUrl (u : String) : Prop :=
  ∃ pre post, u.data = pre ++ schemeSep ++ post

/-- Does the character list `l` contain `sub` as a contiguous substring? -/
def containsSub (sub : List Char) : List Char → Bool
  | [] => isPrefOf sub ([] : List Char)
  | c :: rest => isPrefOf sub (c :: rest) || containsSub sub rest

/-- Python `sub in s` on strings. -/
def strContains (s sub : String) : Bool :=
  containsSub sub.data s.data

/-- Case-insensitive substring test (Python `re.search(pat, s, re.I)` for a
literal pattern): both sides lower-cased first. -/
def strContainsCI (s sub : String) : Bool :=
  containsSub (sub.data.map Char.toLower) (s.data.map Char.toLower)

/-! ### Order-preserving de-duplication -/

/-- De-duplication keeping first occurrences, accumulating the set of already
seen elements (the shape of the scraper's `if x not in acc: acc.append(x)`
loops). -/
def dedupFirstAux [DecidableEq α] (seen : List α) : List α → List α
  | [] => []
  | x :: xs =>
      if x ∈ seen then dedupFirstAux seen xs
      else x :: dedupFirstAux (x :: seen) xs

/-- De-duplication keeping the first occurrence of each element. -/
def dedupFirst [DecidableEq α] (l : List α) : List α :=
  dedupFirstAux [] l

/-! ### The scraper's regular expressions, as deterministic scanners

The two numeric patterns, `(-?\d+\.?\d*),\s*(-?\d+\.?\d*)` (coordinates) and
`(\d+)\s*(?:ft|feet|m|meters)` (elevation), are backtracking-free when
matched greedily: each quantified piece is followed by a literal that its
own character class can never produce, so maximal munch is equivalent to
Python's leftmost search.  `\d` is modelled as the ASCII digits. -/

/-- Match `-?\d+\.?\d*` greedily at the head of `l`, returning the matched
characters and the rest. -/
def matchNumAt (l : List Char) : Option (List Char × List Char) :=
  let (neg, l1) : List Char × List Char :=
    match l with
    | '-' :: t => (['-'], t)
    | _ => ([], l)
  let d := l1.takeWhile Char.isDigit
  let l2 := l1.dropWhile Char.isDigit
  if d = [] then none
  else
    match l2 with
    | '.' :: t =>
        some (neg ++ d ++ '.' :: t.takeWhile Char.isDigit, t.dropWhile Char.isDigit)
    | _ => some (neg ++ d, l2)

/-- Match the coordinate pattern at the head of `l`, returning the two
captured groups. -/
def coordMatchAt (l : List Char) : Option (List Char × List Char) :=
  match matchNumAt l with
  | none => none
  | some (g1, r1) =>
    match r1 with
    | ',' :: r2 =>
        match matchNumAt (r2.dropWhile Char.isWhitespace) with
        | none => none
        | some (g2, _) => some (g1, g2)
    | _ => none

/-- `re.search` for the coordinate pattern: leftmost match. -/
def coordSearch : List Char → Option (List Char × List Char)
  | [] => none
  | c :: t =>
      match coordMatchAt (c :: t) with
      | some g => some g
      | none => coordSearch t

/-- Does one of the unit alternatives `ft|feet|m|meters` match at the head of
`l`?  (Alternation order as in the source; only success matters, the unit is
not captured.) -/
def unitMatchAt (l : List Char) : Bool :=
  isPrefOf "ft".data l || isPrefOf "feet".data l ||
    isPrefOf "m".data l || isPrefOf "meters".data l

/-- Match `(\d+)\s*(?:ft|feet|m|meters)` (case-insensitively, the input is
lower-cased by the caller) at the head of `l`, returning the digit group. -/
def elevMatchAt (l : List Char) : Option (List Char) :=
  let d := l.takeWhile Char.isDigit
  let r := (l.dropWhile Char.isDigit).dropWhile Char.isWhitespace
  if d = [] then none
  else if unitMatchAt r then some d else none

/-- `re.search` for the elevation pattern on the lower-cased text. -/
def elevSearch : List Char → Option (List Char)
  | [] => none
  | c :: t =>
      match elevMatchAt (c :: t) with
      | some g => some g
      | none => elevSearch t

/-- Numeric value of a digit string. -/
def digitsToNat (l : List Char) : Nat :=
  l.foldl (fun n c => 10 * n + (c.toNat - '0'.toNat)) 0

/-- Exact value of an unsigned decimal literal `\d+(\.\d*)?`. -/
def parseUnsigned (l : List Char) : ℚ :=
  let ip := l.takeWhile Char.isDigit
  match l.dropWhile Char.isDigit with
  | '.' :: fp => (digitsToNat ip : ℚ) + (digitsToNat fp : ℚ) / (10 ^ fp.length)
  | _ => (digitsToNat ip : ℚ)

/-- Exact value of a decimal literal `-?\d+(\.\d*)?` (Python `float(s)` up to
binary rounding, which the claims under study never observe). -/
def parseDec (l : List Char) : ℚ :=
  match l with
  | '-' :: t => -(parseUnsigned t)
  | _ => parseUnsigned l

/-! ### The extractors of `MountainProjectScraper` -/

/-- The scraper's `self.base_url`. -/
def base_url : String := "https://www.mountainproject.com"

/-- Result of `extract_route_basic_info`. -/
structure BasicInfo where
  name : String
  difficulty : String
deriving DecidableEq, Repr

/-- Selector `soup.find('span', class_='rateYDS')`. -/
def gradeSelYDS (n : Node) : Bool := isTag "span" n && classMatch "rateYDS" n

/-- Selector `soup.find('span', class_='rateHueco')`. -/
def gradeSelHueco (n : Node) : Bool := isTag "span" n && classMatch "rateHueco" n

/-- Selector `soup.find('span', class_='rateVScale')`. -/
def gradeSelVScale (n : Node) : Bool := isTag "span" n && classMatch "rateVScale" n

/-- Selector `soup.find('h2', class_='inline-block mr-2')` (bs4 matches the
two-class search string against the whole space-joined class attribute). -/
def gradeSelH2 (n : Node) : Bool := isTag "h2" n && classMatch "inline-block mr-2" n

/-- `MountainProjectScraper.extract_route_basic_info`.  The `or` chain over
`find` results picks the first non-`None` tag (bs4 tags are always truthy),
and the separate `if not grade_elem` step supplies the `h2` fallback. -/
def extract_route_basic_info (soup : Node) : BasicInfo :=
  let name_elem := findFirst (isTag "h1") soup
  let grade_elem :=
    (findFirst gradeSelYDS soup).orElse
      (fun _ =>
        (findFirst gradeSelHueco soup).orElse
          (fun _ => findFirst gradeSelVScale soup))
  let grade_elem :=
    match grade_elem with
    | none => findFirst gradeSelH2 soup
    | some e => some e
  { name :=
      match name_elem with
      | some e => getTextStrip "" e
      | none => "N/A"
    difficulty :=
      match grade_elem with
      | some e => getTextStrip "" e
      | none => "N/A" }

mutual
/-- Subtree copy with every `script`/`style` descendant removed — the effect
of the `decompose()` loop in `extract_description`. -/
def stripTags (names : List String) : Node → Node
  | .elem t a c cs => .elem t a c (stripTagsList names cs)
  | .text s => .text s

/-- `stripTags` over a child list. -/
def stripTagsList (names : List String) : List Node → List Node
  | [] => []
  | c :: cs =>
      if (match c.tagOf with
          | some t => names.contains t
          | none => false) then
        stripTagsList names cs
      else stripTags names c :: stripTagsList names cs
end

/-- Selector `soup.find('div', class_='fr-view')`. -/
def descSelContent (n : Node) : Bool := isTag "div" n && classMatch "fr-view" n

/-- Selector `soup.find('div', {'id': 'route-description'})`. -/
def descSelId (n : Node) : Bool := isTag "div" n && n.attr "id" == some "route-description"

/-- `MountainProjectScraper.extract_description`. -/
def extract_description (soup : Node) : String :=
  let desc_section :=
    (findFirst descSelContent soup).orElse
      (fun _ => findFirst descSelId soup)
  match desc_section with
  | some d => getTextStrip " " (stripTags ["script", "style"] d)
  | none => "No description available"

/-- bs4 `.string`: the string of a tag that (transitively) wraps exactly one
child; `None` as soon as there are zero or several children. -/
def nodeString : Node → Option String
  | .text s => some s
  | .elem _ _ _ [c] => nodeString c
  | .elem _ _ _ _ => none

/-- Header filter of `extract_access_info`: an `h3`/`h4`/`h5` whose string
matches `(Getting There|Access|Approach)` case-insensitively. -/
def isAccessHeader (n : Node) : Bool :=
  (n.tagOf == some "h3" || n.tagOf == some "h4" || n.tagOf == some "h5") &&
    (match nodeString n with
     | some s =>
         strContainsCI s "Getting There" || strContainsCI s "Access" ||
           strContainsCI s "Approach"
     | none => false)

/-- `MountainProjectScraper.extract_access_info`. -/
def extract_access_info (soup : Node) : String :=
  let fromHeaders := (findAll isAccessHeader soup).filterMap (fun header =>
    match nextSibling soup header with
    | some ne =>
        if ne.tagOf == some "p" || ne.tagOf == some "div" then some (getTextStrip "" ne)
        else none
    | none => none)
  let access_section :=
    (findFirst (fun n => isTag "div" n && n.attr "id" == some "route-getting-there") soup).orElse
      (fun _ => findFirst (fun n => isTag "section" n && classMatch "getting-there" n) soup)
  let access_info :=
    fromHeaders ++
      (match access_section with
       | some s => [getTextStrip " " s]
       | none => [])
  if access_info = [] then "No access information available"
  else String.intercalate " " access_info

/-- One discovered rating widget (`rating_data` dictionary): every field is a
dictionary key that may be absent. -/
structure Rating where
  stars : Option Nat
  user : Option String
  comment : Option String
deriving DecidableEq, Repr

/-- `MountainProjectScraper.extract_user_ratings`. -/
def extract_user_ratings (soup : Node) : List Rating :=
  let rating_elements :=
    findAll (fun n => isTag "div" n && classMatch "star-rating" n) soup ++
      findAll (fun n => isTag "span" n && classMatch "scoreStars" n) soup
  rating_elements.filterMap (fun rating_elem =>
    let stars :=
      findAll (fun n => isTag "i" n && classMatch "fa-star" n) rating_elem ++
        findAll (fun n => isTag "span" n && classMatch "star" n) rating_elem
    let filled_stars :=
      (stars.filter (fun s =>
        s.classesOf.contains "filled" || s.classesOf.contains "active")).length
    if filled_stars > 0 then
      let parent := findParentIn soup rating_elem
      some
        { stars := some filled_stars
          user := parent.bind (fun p =>
            (findFirst (fun n =>
                isTag "a" n &&
                  (match n.attr "href" with
                   | some h => strContains h "/user/"
                   | none => false)) p).map (getTextStrip ""))
          comment := parent.bind (fun p =>
            ((findFirst (fun n => isTag "div" n && classMatch "comment" n) p).orElse
                (fun _ => findFirst (isTag "p") p)).map (getTextStrip "")) }
    else none)

/-- The `location` dictionary: every key optional. -/
structure Location where
  latitude : Option ℚ
  longitude : Option ℚ
  area_hierarchy : Option (List String)
  elevation : Option String
deriving DecidableEq, Repr

/-- The coordinate-scanning loop of `extract_location`: groups of the first
meta `content` string on which the coordinate pattern matches (`break` after
the first hit). -/
def firstCoordIn : List String → Option (List Char × List Char)
  | [] => none
  | c :: rest =>
      match coordSearch c.data with
      | some g => some g
      | none => firstCoordIn rest

/-- The `content` strings of all `meta` tags, in document order
(`meta.get('content', '')` over `soup.find_all('meta')`). -/
def metaContents (soup : Node) : List String :=
  (findAll (isTag "meta") soup).map (fun m => (m.attr "content").getD "")

/-- `MountainProjectScraper.extract_location`. -/
def extract_location (soup : Node) : Location :=
  let coord := firstCoordIn (metaContents soup)
  let breadcrumbs :=
    (findFirst (fun n => isTag "nav" n && classMatch "breadcrumbs" n) soup).orElse
      (fun _ => findFirst (fun n => isTag "div" n && classMatch "breadcrumb" n) soup)
  let elevation_elem :=
    soup.descendants.find? (fun n =>
      match n with
      | .text s => strContainsCI s "elevation"
      | .elem _ _ _ _ => false)
  { latitude := coord.map (fun g => parseDec g.1)
    longitude := coord.map (fun g => parseDec g.2)
    area_hierarchy := breadcrumbs.map (fun b =>
      ((findAll (isTag "a") b).map (getTextStrip "")).filter (· ≠ ""))
    elevation :=
      match elevation_elem with
      | none => none
      | some tn =>
          let parentN := (findParentIn soup tn).getD tn
          (elevSearch ((getTextRaw parentN).data.map Char.toLower)).map
            (fun d => (⟨d⟩ : String)) }

/-- CSS selector `img[src*="sub"]`: `img` elements whose `src` attribute
contains `sub`. -/
def selImgSrcContains (sub : String) (soup : Node) : List Node :=
  findAll (fun n =>
    isTag "img" n &&
      (match n.attr "src" with
       | some s => strContains s sub
       | none => false)) soup

/-- CSS descendant selector `anc img`: `img` descendants of an element
matched by `anc`, in document order (each occurrence reported once, as
`select` does). -/
def selImgUnder (anc : Node → Bool) (soup : Node) : List Node :=
  findAll (fun n =>
    isTag "img" n && soup.descendants.any (fun e => anc e && memNode n e.descendants)) soup

/-- The `src = img.get('src') or img.get('data-src'); if src:` step: the
first truthy (present and non-empty) of the two attributes. -/
def srcOf (img : Node) : Option String :=
  let truthy : Option String → Option String := fun o =>
    match o with
    | some s => if s = "" then none else some s
    | none => none
  (truthy (img.attr "src")).orElse (fun _ => truthy (img.attr "data-src"))

/-- All image-URL candidates of `extract_images` in scan order: the five
selectors in source order, each image's effective `src` resolved against the
base URL. -/
def imageCandidates (soup : Node) (base : String) : List String :=
  let selections : List (List Node) :=
    [selImgSrcContains "route" soup,
     selImgSrcContains "photo" soup,
     selImgUnder (fun e => e.classesOf.contains "photo") soup,
     selImgUnder (fun e => e.classesOf.contains "image-gallery") soup,
     selImgUnder (fun e => e.attr "id" == some "route-photos") soup]
  selections.flatMap (fun imgs =>
    imgs.filterMap (fun img => (srcOf img).map (fun src => urljoin base src)))

/-- `MountainProjectScraper.extract_images`: the candidate scan with the
`if full_url not in images: images.append(full_url)` accumulation. -/
def extract_images (soup : Node) (base : String) : List String :=
  (imageCandidates soup base).foldl
    (fun images full_url => if full_url ∈ images then images else images ++ [full_url]) []

/-! ### Route assembly, batch driver, link discovery -/

/-- The `Route` dataclass. -/
structure Route where
  name : String
  difficulty : String
  description : String
  access_info : String
  user_ratings : List Rating
  location : Location
  images : List String
  url : String
deriving DecidableEq, Repr

/-- `MountainProjectScraper.scrape_route`, with `get_page` abstracted into the
`fetch` oracle (`none` = transport failure).  The pure extractors cannot
raise, so the `except` branch of the source has no counterpart here. -/
def scrape_route (fetch : String → Option Node) (route_url : String) : Option Route :=
  match fetch route_url with
  | none => none
  | some soup =>
      let basic_info := extract_route_basic_info soup
      some
        { name := basic_info.name
          difficulty := basic_info.difficulty
          description := extract_description soup
          access_info := extract_access_info soup
          user_ratings := extract_user_ratings soup
          location := extract_location soup
          images := extract_images soup base_url
          url := route_url }

/-- `MountainProjectScraper.scrape_multiple_routes`: the
`if route: routes.append(route)` loop (a `Route` object is always truthy). -/
def scrape_multiple_routes (fetch : String → Option Node) : List String → List Route
  | [] => []
  | url :: urls =>
      match scrape_route fetch url with
      | some route => route :: scrape_multiple_routes fetch urls
      | none => scrape_multiple_routes fetch urls

/-- Selector `soup.find_all('a', href=True)`: anchors carrying an `href`
attribute (possibly empty). -/
def anchorSel (n : Node) : Bool := isTag "a" n && (n.attr "href").isSome

/-- `MountainProjectScraper.find_routes_from_area`.  `max_routes` is `none`
for Python `None`; the guard `if max_routes:` is integer truthiness, so
`some 0` is treated like `None`.  Python's `list(set(route_links))` has
unspecified order; the model fixes first-occurrence order, and the claims
about this function use only membership and distinctness. -/
def find_routes_from_area (fetch : String → Option Node) (area_url : String)
    (max_routes : Option Nat) : List String :=
  match fetch area_url with
  | none => []
  | some soup =>
      let route_links :=
        (((findAll anchorSel soup).filterMap (fun link => link.attr "href")).filter
            (fun href => strContains href "/route/")).map
          (fun href => urljoin base_url href)
      let route_links := dedupFirst route_links
      match max_routes with
      | some m => if m ≠ 0 then route_links.take m else route_links
      | none => route_links

/-! ### CSV export -/

/-- A CSV cell: string, rational (Python float), or integer. -/
inductive CsvVal where
  | s (v : String)
  | q (v : ℚ)
deriving DecidableEq, Repr

/-- Round-half-to-even on `ℚ` (Python `round` tie-breaking). -/
def roundHalfEven (x : ℚ) : ℤ :=
  let f := ⌊x⌋
  if x - f < 1 / 2 then f
  else if x - f > 1 / 2 then f + 1
  else if 2 ∣ f then f else f + 1

/-- Python `round(x, 1)` on the exact rational value.  (CPython rounds the
binary double; on the values these claims exercise the two agree.) -/
def pyRound1 (x : ℚ) : ℚ :=
  (roundHalfEven (x * 10) : ℚ) / 10

/-- `sum(r.get('stars', 0) for r in ratings)`. -/
def starsSum (ratings : List Rating) : Nat :=
  (ratings.map (fun r => r.stars.getD 0)).sum

/-- One output row of `save_to_csv` (the `row` dictionary). -/
structure CsvRow where
  name : String
  difficulty : String
  description : String
  access_info : String
  rating_count : Nat
  avg_rating : CsvVal
  location_area : String
  latitude : CsvVal
  longitude : CsvVal
  elevation : String
  image_count : Nat
  url : String
deriving DecidableEq, Repr

/-- The per-route row computation inside the `save_to_csv` loop. -/
def csvRow (route : Route) : CsvRow :=
  let ratings := route.user_ratings
  let avg_rating : ℚ :=
    if ratings = [] then 0 else (starsSum ratings : ℚ) / (ratings.length : ℚ)
  { name := route.name
    difficulty := route.difficulty
    description :=
      if route.description.length > 500 then route.description.take 500 ++ "..."
      else route.description
    access_info :=
      if route.access_info.length > 300 then route.access_info.take 300 ++ "..."
      else route.access_info
    rating_count := ratings.length
    avg_rating := if avg_rating > 0 then .q (pyRound1 avg_rating) else .s "N/A"
    location_area := String.intercalate ", " (route.location.area_hierarchy.getD [])
    latitude :=
      match route.location.latitude with
      | some v => .q v
      | none => .s "N/A"
    longitude :=
      match route.location.longitude with
      | some v => .q v
      | none => .s "N/A"
    elevation := route.location.elevation.getD "N/A"
    image_count := route.images.length
    url := route.url }

/-- The CSV header written by `writer.writeheader()`. -/
def fieldnames : List String :=
  ["name", "difficulty", "description", "access_info", "rating_count", "avg_rating",
   "location_area", "latitude", "longitude", "elevation", "image_count", "url"]

/-- Contents of the file produced by one `save_to_csv` call. -/
structure CsvFile where
  header : List String
  rows : List CsvRow
deriving DecidableEq, Repr

/-- `MountainProjectScraper.save_to_csv`, with the written file modelled as a
value: `none` means the function returned at `if not routes: return` without
opening or creating the output file. -/
def save_to_csv (routes : List Route) (filename : String) : Option (String × CsvFile) :=
  if routes = [] then none
  else some (filename, { header := fieldnames, rows := routes.map csvRow })

/-! ### Concrete test documents and records used by witnesses and
counterexamples -/

/-- A star icon of a ratings widget, filled or not. -/
def starIcon (filled : Bool) : Node :=
  .elem "i" [] (if filled then ["fa-star", "filled"] else ["fa-star"]) []

/-- A `div.star-rating` widget with the given fill pattern. -/
def starWidget (fills : List Bool) : Node :=
  .elem "div" [] ["star-rating"] (fills.map starIcon)

/-- Ratings page: one widget with two filled stars, one with none. -/
def ratingsDoc : Node :=
  .elem "[document]" [] [] [starWidget [true, true, false], starWidget [false, false]]

/-- A route with two ratings of 3 and 5 stars. -/
def routeWithRatings (rs : List Rating) : Route :=
  { name := "The Nose", difficulty := "5.9", description := "short", access_info := "walk"
    user_ratings := rs, location := ⟨none, none, none, none⟩, images := [], url := "u" }

/-- Page whose description block matches the first selector but is empty. -/
def emptyDescDoc : Node :=
  .elem "[document]" [] [] [.elem "div" [] ["fr-view"] []]

/-- Page with no description block at all. -/
def noDescDoc : Node :=
  .elem "[document]" [] [] [.elem "p" [] [] [.text "hello"]]

/-- Page whose first grade marker (`span.rateYDS`) is present but empty while
a later marker (`span.rateHueco`) has text `V5`. -/
def emptyGradeDoc : Node :=
  .elem "[document]" [] []
    [.elem "span" [] ["rateYDS"] [], .elem "span" [] ["rateHueco"] [.text "V5"]]

/-- Page with no grade marker of any of the four kinds. -/
def noGradeDoc : Node :=
  .elem "[document]" [] [] [.elem "h1" [] [] [.text "Some Route"]]

/-- Image page: a duplicated relative `src` that matches `img[src*="route"]`,
and a `.photo` container image with an empty `src` falling back to
`data-src`. -/
def imagesDoc : Node :=
  .elem "[document]" [] []
    [.elem "img" [("src", "/img/route-1.jpg")] [] [],
     .elem "img" [("src", "/img/route-1.jpg")] [] [],
     .elem "div" [] ["photo"]
       [.elem "img" [("src", ""), ("data-src", "gallery/p2.jpg")] [] []]]

/-- A minimal fetchable page for batch-scraping tests. -/
def plainPage : Node :=
  .elem "[document]" [] [] [.elem "h1" [] [] [.text "R"]]

/-- Fetch oracle that fails exactly on `"u2"`. -/
def fetchFailU2 (u : String) : Option Node :=
  if u = "u2" then none else some plainPage

/-- Area page with the claim's three anchors: `/route/1/a` twice and
`/area/2/b` once. -/
def areaDoc : Node :=
  .elem "[document]" [] []
    [.elem "a" [("href", "/route/1/a")] [] [.text "R1"],
     .elem "a" [("href", "/route/1/a")] [] [.text "R1 again"],
     .elem "a" [("href", "/area/2/b")] [] [.text "A"]]

/-- Page with two `meta` tags whose contents both contain coordinates. -/
def coordsDoc : Node :=
  .elem "[document]" [] []
    [.elem "meta" [("content", "40.1, -105.3")] [] [],
     .elem "meta" [("content", "1,2")] [] []]

/-! ### Helper lemmas -/

theorem isPrefOf_iff (s l : List Char) : isPrefOf s l = true ↔ ∃ t, l = s ++ t := by
  induction s generalizing l with
  | nil => simp [isPrefOf]
  | cons a as ih =>
    cases l with
    | nil => simp [isPrefOf]
    | cons b bs =>
      simp only [isPrefOf, Bool.and_eq_true, beq_iff_eq, ih, List.cons_append,
        List.cons.injEq]
      constructor
      · rintro ⟨rfl, t, rfl⟩; exact ⟨t, rfl, rfl⟩
      · rintro ⟨t, rfl, rfl⟩; exact ⟨rfl, t, rfl⟩

theorem splitFirst_eq_some {sub l a b : List Char}
    (h : splitFirst sub l = some (a, b)) : l = a ++ sub ++ b := by
  induction l generalizing a b with
  | nil =>
    by_cases hp : isPrefOf sub [] = true
    · have hsub : sub = [] := by
        obtain ⟨t, ht⟩ := (isPrefOf_iff _ _).mp hp
        exact (List.append_eq_nil.mp ht.symm).1
      simp [splitFirst, hp] at h
      obtain ⟨rfl, rfl⟩ := h
      simp [hsub]
    · simp [splitFirst, hp] at h
  | cons c rest ih =>
    by_cases hp : isPrefOf sub (c :: rest) = true
    · obtain ⟨t, ht⟩ := (isPrefOf_iff _ _).mp hp
      simp only [splitFirst, hp, if_pos, Option.some.injEq, Prod.mk.injEq] at h
      obtain ⟨rfl, rfl⟩ := h
      rw [ht, List.drop_left]
      simp
    · simp only [splitFirst, hp, if_neg, Bool.false_eq_true, not_false_iff] at h
      cases hs : splitFirst sub rest with
      | none => rw [hs] at h; exact absurd h (by simp)
      | some p =>
        obtain ⟨a', b'⟩ := p
        rw [hs] at h
        simp only [Option.some.injEq, Prod.mk.injEq] at h
        obtain ⟨rfl, rfl⟩ := h
        have := ih hs
        simp [this]

theorem splitFirst_isSome {sub a b : List Char} :
    (splitFirst sub (a ++ sub ++ b)).isSome := by
  induction a with
  | nil =>
    have hp : isPrefOf sub ([] ++ sub ++ b) = true :=
      (isPrefOf_iff _ _).mpr ⟨b, by simp⟩
    cases hl : ([] : List Char) ++ sub ++ b with
    | nil => rw [hl] at hp; simp [splitFirst, hp]
    | cons c rest => rw [hl] at hp; simp [splitFirst, hp]
  | cons c a' ih =>
    have hl : (c :: a') ++ sub ++ b = c :: (a' ++ sub ++ b) := by simp
    rw [hl]
    unfold splitFirst
    simp only [List.append_assoc] at ih ⊢
    by_cases hp : isPrefOf sub (c :: (a' ++ (sub ++ b))) = true
    · simp [hp]
    · simp only [hp, if_neg, Bool.false_eq_true, not_false_iff]
      cases hs : splitFirst sub (a' ++ (sub ++ b)) with
      | none => rw [hs] at ih; exact absurd ih (by simp)
      | some p => obtain ⟨x, y⟩ := p; simp

theorem data_mk (l : List Char) : (⟨l⟩ : String).data = l := rfl

theorem urljoin_absolute {base : String} (url : String)
    (hb : IsAbsoluteUrl base) : IsAbsoluteUrl (urljoin base url) := by
  obtain ⟨p, q, hpq⟩ := hb
  show IsAbsoluteUrl ⟨urljoinL base.data url.data⟩
  unfold urljoinL
  by_cases h0 : url.data = []
  · simpa [h0, data_mk] using ⟨p, q, hpq⟩
  · simp only [h0, if_neg, not_false_iff]
    cases hu : splitFirst schemeSep url.data with
    | some pr =>
      obtain ⟨a, b⟩ := pr
      exact ⟨a, b, by simp [data_mk, hu, splitFirst_eq_some hu]⟩
    | none =>
      have hbs : (splitFirst schemeSep base.data).isSome := by
        rw [hpq]; exact splitFirst_isSome
      cases hsb : splitFirst schemeSep base.data with
      | none => rw [hsb] at hbs; exact absurd hbs (by simp)
      | some pr =>
        obtain ⟨sch, rest⟩ := pr
        by_cases h2 : isPrefOf ['/', '/'] url.data = true
        · obtain ⟨t, ht⟩ := (isPrefOf_iff _ _).mp h2
          exact ⟨sch, t, by simp [data_mk, hu, hsb, ht, schemeSep, isPrefOf]⟩
        · by_cases h1 : isPrefOf ['/'] url.data = true
          · exact ⟨sch, rest.takeWhile (· ≠ '/') ++ url.data,
              by simp [data_mk, hu, hsb, h2, h1, schemeSep]⟩
          · exact ⟨sch, rest.takeWhile (· ≠ '/') ++
              dirOfPath (rest.dropWhile (· ≠ '/')) ++ url.data,
              by simp [data_mk, hu, hsb, h2, h1, schemeSep]⟩

theorem mem_dedupFirstAux [DecidableEq α] {a : α} {seen l : List α} :
    a ∈ dedupFirstAux seen l ↔ a ∈ l ∧ a ∉ seen := by
  induction l generalizing seen with
  | nil => simp [dedupFirstAux]
  | cons x xs ih =>
    by_cases hx : x ∈ seen
    · simp only [dedupFirstAux, hx, if_pos, ih, List.mem_cons]
      constructor
      · rintro ⟨h1, h2⟩; exact ⟨Or.inr h1, h2⟩
      · rintro ⟨h1 | h1, h2⟩
        · exact absurd hx (h1 ▸ h2)
        · exact ⟨h1, h2⟩
    · simp only [dedupFirstAux, hx, if_neg, not_false_iff, List.mem_cons, ih]
      constructor
      · rintro (rfl | ⟨h1, h2⟩)
        · exact ⟨Or.inl rfl, hx⟩
        · exact ⟨Or.inr h1, fun hc => h2 (Or.inr hc)⟩
      · rintro ⟨rfl | h1, h2⟩
        · exact Or.inl rfl
        · by_cases hax : a = x
          · exact Or.inl hax
          · exact Or.inr ⟨h1, by simp [hax, h2]⟩

theorem nodup_dedupFirstAux [DecidableEq α] (seen l : List α) :
    (dedupFirstAux seen l).Nodup := by
  induction l generalizing seen with
  | nil => simp [dedupFirstAux]
  | cons x xs ih =>
    by_cases hx : x ∈ seen
    · simpa [dedupFirstAux, hx] using ih seen
    · simp only [dedupFirstAux, hx, if_neg, not_false_iff, List.nodup_cons]
      refine ⟨fun hc => ?_, ih (x :: seen)⟩
      exact (mem_dedupFirstAux.mp hc).2 (List.mem_cons_self x seen)

theorem sublist_dedupFirstAux [DecidableEq α] (seen l : List α) :
    (dedupFirstAux seen l).Sublist l := by
  induction l generalizing seen with
  | nil => simp [dedupFirstAux]
  | cons x xs ih =>
    by_cases hx : x ∈ seen
    · simpa [dedupFirstAux, hx] using (ih seen).trans (List.sublist_cons_self x xs)
    · simpa [dedupFirstAux, hx] using List.Sublist.cons₂ x (ih (x :: seen))

theorem mem_dedupFirst [DecidableEq α] {a : α} {l : List α} :
    a ∈ dedupFirst l ↔ a ∈ l := by
  simp [dedupFirst, mem_dedupFirstAux]

theorem nodup_dedupFirst [DecidableEq α] (l : List α) : (dedupFirst l).Nodup :=
  nodup_dedupFirstAux [] l

theorem dedupFirstAux_congr [DecidableEq α] {s t : List α}
    (h : ∀ a, a ∈ s ↔ a ∈ t) : ∀ l, dedupFirstAux s l = dedupFirstAux t l := by
  intro l
  induction l generalizing s t with
  | nil => rfl
  | cons x xs ih =>
    by_cases hx : x ∈ s
    · have hx' : x ∈ t := (h x).mp hx
      simp only [dedupFirstAux, hx, hx', if_pos]
      exact ih h
    · have hx' : x ∉ t := fun hc => hx ((h x).mpr hc)
      simp only [dedupFirstAux, hx, hx', if_neg, not_false_iff]
      refine congrArg _ (ih fun a => ?_)
      simp [List.mem_cons, h a]

theorem foldl_append_dedup [DecidableEq α] (l acc : List α) :
    l.foldl (fun images u => if u ∈ images then images else images ++ [u]) acc =
      acc ++ dedupFirstAux acc l := by
  induction l generalizing acc with
  | nil => simp [dedupFirstAux]
  | cons u l ih =>
    by_cases hu : u ∈ acc
    · simp [List.foldl_cons, hu, dedupFirstAux, ih]
    · simp only [List.foldl_cons, hu, if_neg, not_false_iff, dedupFirstAux]
      rw [ih]
      rw [dedupFirstAux_congr (s := acc ++ [u]) (t := u :: acc) (by intro a; simp [or_comm])]
      simp

/-! ### Claim theorems -/

/-- C1: every `Rating` emitted by `extract_user_ratings` has a `stars` field
that is present and strictly greater than 0; widgets whose filled-star count
is zero produce no `Rating`. -/
theorem user_ratings_stars_pos (soup : Node) (r : Rating)
    (h : r ∈ extract_user_ratings soup) : ∃ n, r.stars = some n ∧ 0 < n := by
  simp only [extract_user_ratings, List.mem_filterMap] at h
  obtain ⟨e, -, hf⟩ := h
  split at hf
  · next hpos =>
      rw [Option.some.injEq] at hf
      subst hf
      exact ⟨_, rfl, hpos⟩
  · exact absurd hf (by simp)

/-- C1 witness: the two-filled-star widget of `ratingsDoc` yields the rating
`stars = 2`, whose `stars` field is present and positive; the zero-star
widget yields nothing. -/
theorem user_ratings_stars_pos_witness :
    (⟨some 2, none, none⟩ : Rating) ∈ extract_user_ratings ratingsDoc ∧
      ∃ n, (⟨some 2, none, none⟩ : Rating).stars = some n ∧ 0 < n :=
  ⟨by decide, user_ratings_stars_pos ratingsDoc ⟨some 2, none, none⟩ (by decide)⟩

/-- C2 counterexample: a route with the single rating `{'stars': 0}` has a
non-empty ratings list, yet `save_to_csv` writes `"N/A"` — not the rounded
mean (which would be `0.0`) that the claim prescribes for every non-empty
ratings list. -/
theorem csv_avg_rating_cex :
    (routeWithRatings [⟨some 0, none, none⟩]).user_ratings ≠ [] ∧
    (csvRow (routeWithRatings [⟨some 0, none, none⟩])).avg_rating = CsvVal.s "N/A" ∧
    CsvVal.s "N/A" ≠
      CsvVal.q (pyRound1
        ((starsSum (routeWithRatings [⟨some 0, none, none⟩]).user_ratings : ℚ) /
          ((routeWithRatings [⟨some 0, none, none⟩]).user_ratings.length : ℚ))) :=
  ⟨by simp [routeWithRatings], by simp [routeWithRatings, csvRow, starsSum], by simp⟩

/-- C2 (amended): `avg_rating` is the literal `"N/A"` exactly when the
ratings' star total is zero (in particular whenever the list is empty, since
`stars` defaults to 0), and otherwise the mean of the star values rounded to
one decimal; in particular ratings `[3, 5]` give `4.0` and an empty list
gives `"N/A"`. -/
theorem csv_avg_rating_amended :
    (∀ route : Route,
      (csvRow route).avg_rating =
        if starsSum route.user_ratings = 0 then CsvVal.s "N/A"
        else CsvVal.q (pyRound1 ((starsSum route.user_ratings : ℚ) /
          (route.user_ratings.length : ℚ)))) ∧
    (csvRow (routeWithRatings [⟨some 3, none, none⟩, ⟨some 5, none, none⟩])).avg_rating =
      CsvVal.q 4 ∧
    (csvRow (routeWithRatings [])).avg_rating = CsvVal.s "N/A" := by
  refine ⟨?_, ?_, ?_⟩
  · intro route
    by_cases hnil : route.user_ratings = []
    · simp [csvRow, hnil, starsSum]
    · by_cases hsum : starsSum route.user_ratings = 0
      · have hz : ((starsSum route.user_ratings : ℚ) /
            (route.user_ratings.length : ℚ)) = 0 := by
          rw [hsum]; simp
        simp [csvRow, hnil, hsum, hz]
      · have hlen : (0 : ℚ) < (route.user_ratings.length : ℚ) := by
          exact_mod_cast List.length_pos.mpr hnil
        have hpos : (0 : ℚ) < (starsSum route.user_ratings : ℚ) /
            (route.user_ratings.length : ℚ) :=
          div_pos (by exact_mod_cast Nat.pos_of_ne_zero hsum) hlen
        simp [csvRow, hnil, hsum, hpos]
  · simp [routeWithRatings, csvRow, starsSum, pyRound1, roundHalfEven]
    norm_num
  · simp [routeWithRatings, csvRow, starsSum]

/-- C3 counterexample: on a page whose content block (`div.fr-view`) exists
but is empty, `extract_description` returns the empty string, not the
fallback literal the claim prescribes for empty content blocks (a bs4 tag is
truthy even when empty, so the `or` chain does not fall through). -/
theorem description_cex :
    extract_description emptyDescDoc = "" ∧
      ("" : String) ≠ "No description available" :=
  ⟨rfl, by decide⟩

/-- Text extraction from a childless block is empty (after script/style
removal). -/
theorem getTextStrip_childless (sep t : String) (a : List (String × String))
    (c : List String) :
    getTextStrip sep (stripTags ["script", "style"] (.elem t a c [])) = "" := by
  simp only [getTextStrip, stripTags, stripTagsList, Node.texts, Node.textsList,
    List.map_nil, List.filter_nil]
  rfl

/-- C3 (amended): whenever a description selector matches — the content-class
selector first, else the id selector — `extract_description` returns that
block's script/style-stripped text, in particular the empty string when the
matched block is childless (a bs4 tag is truthy even when empty, so empty
blocks are not redirected to the fallback); it returns the fallback literal
when neither selector matches, and conversely the fallback literal only
arises when neither selector matches or the matched block's own text is that
literal. -/
theorem description_amended (soup : Node) :
    ((findFirst descSelContent soup = none ∧ findFirst descSelId soup = none) →
      extract_description soup = "No description available") ∧
    (∀ d, (findFirst descSelContent soup = some d ∨
        (findFirst descSelContent soup = none ∧ findFirst descSelId soup = some d)) →
      extract_description soup = getTextStrip " " (stripTags ["script", "style"] d)) ∧
    (∀ t a c, (findFirst descSelContent soup = some (.elem t a c []) ∨
        (findFirst descSelContent soup = none ∧
          findFirst descSelId soup = some (.elem t a c []))) →
      extract_description soup = "") ∧
    (extract_description soup = "No description available" →
      (findFirst descSelContent soup = none ∧ findFirst descSelId soup = none) ∨
      ∃ d, (findFirst descSelContent soup = some d ∨
          (findFirst descSelContent soup = none ∧ findFirst descSelId soup = some d)) ∧
        getTextStrip " " (stripTags ["script", "style"] d) = "No description available") := by
  cases h1 : findFirst descSelContent soup with
  | some d =>
    have hval : extract_description soup =
        getTextStrip " " (stripTags ["script", "style"] d) := by
      simp [extract_description, h1, Option.orElse]
    refine ⟨?_, ?_, ?_, ?_⟩
    · rintro ⟨hn, -⟩; exact absurd hn (by simp)
    · rintro d' (h | ⟨hn, -⟩)
      · rw [Option.some.injEq] at h; subst h; exact hval
      · exact absurd hn (by simp)
    · rintro t a c (h | ⟨hn, -⟩)
      · rw [Option.some.injEq] at h
        rw [h] at hval
        exact hval.trans (getTextStrip_childless _ _ _ _)
      · exact absurd hn (by simp)
    · intro hNA
      exact Or.inr ⟨d, Or.inl rfl, hval.symm.trans hNA⟩
  | none =>
    cases h2 : findFirst descSelId soup with
    | some d =>
      have hval : extract_description soup =
          getTextStrip " " (stripTags ["script", "style"] d) := by
        simp [extract_description, h1, h2, Option.orElse]
      refine ⟨?_, ?_, ?_, ?_⟩
      · rintro ⟨-, hn⟩; exact absurd hn (by simp)
      · rintro d' (h | ⟨-, h⟩)
        · exact absurd h (by simp)
        · rw [Option.some.injEq] at h; subst h; exact hval
      · rintro t a c (h | ⟨-, h⟩)
        · exact absurd h (by simp)
        · rw [Option.some.injEq] at h
          rw [h] at hval
          exact hval.trans (getTextStrip_childless _ _ _ _)
      · intro hNA
        exact Or.inr ⟨d, Or.inr ⟨rfl, rfl⟩, hval.symm.trans hNA⟩
    | none =>
      have hval : extract_description soup = "No description available" := by
        simp [extract_description, h1, h2, Option.orElse]
      refine ⟨fun _ => hval, ?_, ?_, fun _ => Or.inl ⟨rfl, rfl⟩⟩
      · rintro d' (h | ⟨-, h⟩)
        · exact absurd h (by simp)
        · exact absurd h (by simp)
      · rintro t a c (h | ⟨-, h⟩)
        · exact absurd h (by simp)
        · exact absurd h (by simp)

/-- C3 amended witness: a page with no description block yields the
fallback; a page whose `div.fr-view` is empty yields `""`. -/
theorem description_amended_witness :
    extract_description noDescDoc = "No description available" ∧
      extract_description emptyDescDoc = "" :=
  ⟨(description_amended noDescDoc).1 ⟨rfl, rfl⟩,
   (description_amended emptyDescDoc).2.2.1 "div" [] ["fr-view"] (Or.inl rfl)⟩

/-- C7 counterexample: on a page whose first grade marker (`span.rateYDS`)
is empty while `span.rateHueco` has text `V5`, the difficulty is the empty
text of the first match, not the first non-empty match `V5` the claim
prescribes. -/
theorem difficulty_cex :
    (extract_route_basic_info emptyGradeDoc).difficulty = "" ∧
    findFirst gradeSelHueco emptyGradeDoc =
      some (.elem "span" [] ["rateHueco"] [.text "V5"]) ∧
    getTextStrip "" (.elem "span" [] ["rateHueco"] [.text "V5"]) = "V5" ∧
    ("" : String) ≠ "V5" :=
  ⟨rfl, rfl, by decide, by decide⟩

/-- C7 (amended): the difficulty is the text of the first matching grade
marker in the four-way fallback order (`span.rateYDS`, `span.rateHueco`,
`span.rateVScale`, then the heading-style marker), even when that text is
empty; it is `"N/A"` when no marker of any of the four kinds matches, and
conversely `"N/A"` only arises when no marker matches or the selected
marker's own text is `"N/A"`. -/
theorem difficulty_amended (soup : Node) :
    ((∀ e ∈ soup.descendants, gradeSelYDS e = false ∧ gradeSelHueco e = false ∧
        gradeSelVScale e = false ∧ gradeSelH2 e = false) →
      (extract_route_basic_info soup).difficulty = "N/A") ∧
    ((findFirst gradeSelYDS soup = none ∧ findFirst gradeSelHueco soup = none ∧
        findFirst gradeSelVScale soup = none ∧ findFirst gradeSelH2 soup = none) →
      (extract_route_basic_info soup).difficulty = "N/A") ∧
    (∀ e, findFirst gradeSelYDS soup = some e →
      (extract_route_basic_info soup).difficulty = getTextStrip "" e) ∧
    (∀ e, findFirst gradeSelYDS soup = none →
      findFirst gradeSelHueco soup = some e →
      (extract_route_basic_info soup).difficulty = getTextStrip "" e) ∧
    (∀ e, findFirst gradeSelYDS soup = none →
      findFirst gradeSelHueco soup = none →
      findFirst gradeSelVScale soup = some e →
      (extract_route_basic_info soup).difficulty = getTextStrip "" e) ∧
    (∀ e, findFirst gradeSelYDS soup = none →
      findFirst gradeSelHueco soup = none →
      findFirst gradeSelVScale soup = none →
      findFirst gradeSelH2 soup = some e →
      (extract_route_basic_info soup).difficulty = getTextStrip "" e) ∧
    ((extract_route_basic_info soup).difficulty = "N/A" →
      (findFirst gradeSelYDS soup = none ∧ findFirst gradeSelHueco soup = none ∧
        findFirst gradeSelVScale soup = none ∧ findFirst gradeSelH2 soup = none) ∨
      ∃ e, getTextStrip "" e = "N/A" ∧
        (findFirst gradeSelYDS soup = some e ∨ findFirst gradeSelHueco soup = some e ∨
          findFirst gradeSelVScale soup = some e ∨ findFirst gradeSelH2 soup = some e)) := by
  have key : ((findFirst gradeSelYDS soup = none ∧ findFirst gradeSelHueco soup = none ∧
        findFirst gradeSelVScale soup = none ∧ findFirst gradeSelH2 soup = none) →
      (extract_route_basic_info soup).difficulty = "N/A") ∧
      (∀ e, findFirst gradeSelYDS soup = some e →
        (extract_route_basic_info soup).difficulty = getTextStrip "" e) ∧
      (∀ e, findFirst gradeSelYDS soup = none →
        findFirst gradeSelHueco soup = some e →
        (extract_route_basic_info soup).difficulty = getTextStrip "" e) ∧
      (∀ e, findFirst gradeSelYDS soup = none →
        findFirst gradeSelHueco soup = none →
        findFirst gradeSelVScale soup = some e →
        (extract_route_basic_info soup).difficulty = getTextStrip "" e) ∧
      (∀ e, findFirst gradeSelYDS soup = none →
        findFirst gradeSelHueco soup = none →
        findFirst gradeSelVScale soup = none →
        findFirst gradeSelH2 soup = some e →
        (extract_route_basic_info soup).difficulty = getTextStrip "" e) ∧
      ((extract_route_basic_info soup).difficulty = "N/A" →
        (findFirst gradeSelYDS soup = none ∧ findFirst gradeSelHueco soup = none ∧
          findFirst gradeSelVScale soup = none ∧ findFirst gradeSelH2 soup = none) ∨
        ∃ e, getTextStrip "" e = "N/A" ∧
          (findFirst gradeSelYDS soup = some e ∨ findFirst gradeSelHueco soup = some e ∨
            findFirst gradeSelVScale soup = some e ∨
            findFirst gradeSelH2 soup = some e)) := by
    cases h1 : findFirst gradeSelYDS soup with
    | some e =>
      have hval : (extract_route_basic_info soup).difficulty = getTextStrip "" e := by
        simp [extract_route_basic_info, h1, Option.orElse]
      refine ⟨?_, ?_, ?_, ?_, ?_, ?_⟩
      · rintro ⟨hn, -⟩; exact absurd hn (by simp)
      · intro e' he'
        rw [Option.some.injEq] at he'
        subst he'; exact hval
      · intro e' hn _; exact absurd hn (by simp)
      · intro e' hn _ _; exact absurd hn (by simp)
      · intro e' hn _ _ _; exact absurd hn (by simp)
      · intro hNA
        exact Or.inr ⟨e, hval.symm.trans hNA, Or.inl rfl⟩
    | none =>
      cases h2 : findFirst gradeSelHueco soup with
      | some e =>
        have hval : (extract_route_basic_info soup).difficulty = getTextStrip "" e := by
          simp [extract_route_basic_info, h1, h2, Option.orElse]
        refine ⟨?_, ?_, ?_, ?_, ?_, ?_⟩
        · rintro ⟨-, hn, -⟩; exact absurd hn (by simp)
        · intro e' he'; exact absurd he' (by simp)
        · intro e' _ he'
          rw [Option.some.injEq] at he'
          subst he'; exact hval
        · intro e' _ hn _; exact absurd hn (by simp)
        · intro e' _ hn _ _; exact absurd hn (by simp)
        · intro hNA
          exact Or.inr ⟨e, hval.symm.trans hNA, Or.inr (Or.inl rfl)⟩
      | none =>
        cases h3 : findFirst gradeSelVScale soup with
        | some e =>
          have hval : (extract_route_basic_info soup).difficulty =
              getTextStrip "" e := by
            simp [extract_route_basic_info, h1, h2, h3, Option.orElse]
          refine ⟨?_, ?_, ?_, ?_, ?_, ?_⟩
          · rintro ⟨-, -, hn, -⟩; exact absurd hn (by simp)
          · intro e' he'; exact absurd he' (by simp)
          · intro e' _ he'; exact absurd he' (by simp)
          · intro e' _ _ he'
            rw [Option.some.injEq] at he'
            subst he'; exact hval
          · intro e' _ _ hn _; exact absurd hn (by simp)
          · intro hNA
            exact Or.inr ⟨e, hval.symm.trans hNA, Or.inr (Or.inr (Or.inl rfl))⟩
        | none =>
          cases h4 : findFirst gradeSelH2 soup with
          | some e =>
            have hval : (extract_route_basic_info soup).difficulty =
                getTextStrip "" e := by
              simp [extract_route_basic_info, h1, h2, h3, h4, Option.orElse]
            refine ⟨?_, ?_, ?_, ?_, ?_, ?_⟩
            · rintro ⟨-, -, -, hn⟩; exact absurd hn (by simp)
            · intro e' he'; exact absurd he' (by simp)
            · intro e' _ he'; exact absurd he' (by simp)
            · intro e' _ _ he'; exact absurd he' (by simp)
            · intro e' _ _ _ he'
              rw [Option.some.injEq] at he'
              subst he'; exact hval
            · intro hNA
              exact Or.inr ⟨e, hval.symm.trans hNA, Or.inr (Or.inr (Or.inr rfl))⟩
          | none =>
            have hval : (extract_route_basic_info soup).difficulty = "N/A" := by
              simp [extract_route_basic_info, h1, h2, h3, h4, Option.orElse]
            refine ⟨fun _ => hval, ?_, ?_, ?_, ?_,
              fun _ => Or.inl ⟨rfl, rfl, rfl, rfl⟩⟩
            · intro e' he'; exact absurd he' (by simp)
            · intro e' _ he'; exact absurd he' (by simp)
            · intro e' _ _ he'; exact absurd he' (by simp)
            · intro e' _ _ _ he'; exact absurd he' (by simp)
  refine ⟨?_, key.1, key.2.1, key.2.2.1, key.2.2.2.1, key.2.2.2.2.1, key.2.2.2.2.2⟩
  intro h
  refine key.1 ⟨?_, ?_, ?_, ?_⟩
  · exact List.find?_eq_none.mpr fun e he => by simp [(h e he).1]
  · exact List.find?_eq_none.mpr fun e he => by simp [(h e he).2.1]
  · exact List.find?_eq_none.mpr fun e he => by simp [(h e he).2.2.1]
  · exact List.find?_eq_none.mpr fun e he => by simp [(h e he).2.2.2]

/-- C7 amended witness: a page with no grade marker yields `"N/A"`, and a
page whose first marker is an empty `span.rateYDS` yields that marker's
(empty) text. -/
theorem difficulty_amended_witness :
    (extract_route_basic_info noGradeDoc).difficulty = "N/A" ∧
      (extract_route_basic_info emptyGradeDoc).difficulty =
        getTextStrip "" (.elem "span" [] ["rateYDS"] []) :=
  ⟨(difficulty_amended noGradeDoc).1 (by decide),
   (difficulty_amended emptyGradeDoc).2.2.1 (.elem "span" [] ["rateYDS"] []) rfl⟩

/-- Every image candidate is the resolution of some effective `src` against
the base URL. -/
theorem imageCandidates_mem {soup : Node} {base u : String}
    (h : u ∈ imageCandidates soup base) : ∃ src, u = urljoin base src := by
  simp only [imageCandidates, List.mem_flatMap, List.mem_filterMap] at h
  obtain ⟨imgs, -, img, -, hmap⟩ := h
  obtain ⟨src, -, hu⟩ := Option.map_eq_some'.mp hmap
  exact ⟨src, hu.symm⟩

/-- C4: `extract_images` is the first-occurrence de-duplication of the
candidate scan — so its output has no duplicates and preserves scan order —
and, the base URL being absolute, every entry is an absolute URL. -/
theorem images_nodup_absolute (soup : Node) (base : String)
    (hbase : IsAbsoluteUrl base) :
    extract_images soup base = dedupFirst (imageCandidates soup base) ∧
    (extract_images soup base).Nodup ∧
    (extract_images soup base).Sublist (imageCandidates soup base) ∧
    ∀ u ∈ extract_images soup base, IsAbsoluteUrl u := by
  have heq : extract_images soup base = dedupFirst (imageCandidates soup base) := by
    unfold extract_images dedupFirst
    simpa using foldl_append_dedup (imageCandidates soup base) []
  refine ⟨heq, ?_, ?_, ?_⟩
  · rw [heq]; exact nodup_dedupFirst _
  · rw [heq]; exact sublist_dedupFirstAux [] _
  · intro u hu
    rw [heq] at hu
    obtain ⟨src, rfl⟩ := imageCandidates_mem (mem_dedupFirst.mp hu)
    exact urljoin_absolute src hbase

/-- C4 witness: on `imagesDoc` with the scraper's base URL the output is the
two resolved absolute URLs, the duplicated relative `src` appearing once. -/
theorem images_nodup_absolute_witness :
    extract_images imagesDoc base_url =
      ["https://www.mountainproject.com/img/route-1.jpg",
       "https://www.mountainproject.com/gallery/p2.jpg"] ∧
    (extract_images imagesDoc base_url).Nodup :=
  ⟨by decide,
   (images_nodup_absolute imagesDoc base_url
      ⟨"https".data, "www.mountainproject.com".data, by decide⟩).2.1⟩

/-- C5: the batch driver emits, in caller order, exactly the routes of the
URLs whose fetch succeeded, each tagged with its own URL; any URL whose
fetch fails appears in no output record. -/
theorem batch_skips_failed (fetch : String → Option Node) (urls : List String) :
    (scrape_multiple_routes fetch urls).map Route.url =
      urls.filter (fun u => (fetch u).isSome) ∧
    ∀ u, fetch u = none → ∀ r ∈ scrape_multiple_routes fetch urls, r.url ≠ u := by
  have hmap : ∀ us : List String,
      (scrape_multiple_routes fetch us).map Route.url =
        us.filter (fun u => (fetch u).isSome) := by
    intro us
    induction us with
    | nil => rfl
    | cons u us ih =>
      unfold scrape_multiple_routes scrape_route
      cases hf : fetch u with
      | none => simpa [hf] using ih
      | some soup => simp [hf, ih]
  refine ⟨hmap urls, ?_⟩
  intro u hu r hr hru
  have hmem : r.url ∈ (scrape_multiple_routes fetch urls).map Route.url :=
    List.mem_map_of_mem _ hr
  rw [hmap urls] at hmem
  have := List.of_mem_filter hmem
  rw [hru, hu] at this
  simp at this

/-- C5 witness: a 3-URL batch whose middle URL fails to fetch yields exactly
the two successful routes in order, and no record carries the failing URL. -/
theorem batch_skips_failed_witness :
    (scrape_multiple_routes fetchFailU2 ["u1", "u2", "u3"]).map Route.url =
      ["u1", "u3"] ∧
    (scrape_multiple_routes fetchFailU2 ["u1", "u2", "u3"]).length = 2 ∧
    ∀ r ∈ scrape_multiple_routes fetchFailU2 ["u1", "u2", "u3"], r.url ≠ "u2" := by
  have h := batch_skips_failed fetchFailU2 ["u1", "u2", "u3"]
  have hfil : (["u1", "u2", "u3"].filter fun u => (fetchFailU2 u).isSome) =
      ["u1", "u3"] := by decide
  refine ⟨h.1.trans hfil, ?_, fun r hr => h.2 "u2" (by simp [fetchFailU2]) r hr⟩
  have hlen := congrArg List.length (h.1.trans hfil)
  simpa using hlen

/-- C6: with `max_routes = None`, the link discoverer returns a
duplicate-free list containing exactly the resolutions against the base URL
of the `href`s of anchors whose `href` contains `/route/`; on the claim's
three-anchor page it returns exactly one absolute URL, for `/route/1/a`. -/
theorem find_routes_spec (fetch : String → Option Node) (area : String)
    (soup : Node) (h : fetch area = some soup) :
    (find_routes_from_area fetch area none).Nodup ∧
    (∀ u, u ∈ find_routes_from_area fetch area none ↔
      ∃ link ∈ findAll anchorSel soup, ∃ href,
        link.attr "href" = some href ∧ strContains href "/route/" = true ∧
        u = urljoin base_url href) ∧
    find_routes_from_area (fun _ => some areaDoc) "area-url" none =
      ["https://www.mountainproject.com/route/1/a"] := by
  refine ⟨?_, ?_, by decide⟩
  · unfold find_routes_from_area
    rw [h]
    exact nodup_dedupFirst _
  · intro u
    unfold find_routes_from_area
    rw [h]
    show u ∈ dedupFirst _ ↔ _
    rw [mem_dedupFirst]
    simp only [List.mem_map, List.mem_filter, List.mem_filterMap]
    constructor
    · rintro ⟨href, ⟨⟨link, hlink, hattr⟩, hcontains⟩, rfl⟩
      exact ⟨link, hlink, href, hattr, hcontains, rfl⟩
    · rintro ⟨link, hlink, href, hattr, hcontains, rfl⟩
      exact ⟨href, ⟨⟨link, hlink, hattr⟩, hcontains⟩, rfl⟩

/-- C6 witness: on the three-anchor area page the discoverer's output is
duplicate-free and contains the resolved `/route/1/a` URL. -/
theorem find_routes_spec_witness :
    (find_routes_from_area (fun _ => some areaDoc) "a" none).Nodup ∧
    "https://www.mountainproject.com/route/1/a" ∈
      find_routes_from_area (fun _ => some areaDoc) "a" none :=
  ⟨(find_routes_spec (fun _ => some areaDoc) "a" areaDoc rfl).1,
   ((find_routes_spec (fun _ => some areaDoc) "a" areaDoc rfl).2.1 _).mpr
     ⟨.elem "a" [("href", "/route/1/a")] [] [.text "R1"],
      List.mem_cons_self _ _,
      "/route/1/a", rfl, by decide, by decide⟩⟩

/-- The coordinate loop of `extract_location` returns the groups of the
first meta content string the pattern matches. -/
theorem firstCoordIn_eq (l : List String) :
    firstCoordIn l =
      (l.find? (fun c => (coordSearch c.data).isSome)).bind
        (fun c => coordSearch c.data) := by
  induction l with
  | nil => rfl
  | cons c rest ih =>
    cases hs : coordSearch c.data with
    | some g => simp [firstCoordIn, List.find?_cons, hs]
    | none => simp [firstCoordIn, List.find?_cons, hs, ih]

/-- C8: `extract_location` sets `latitude` and `longitude` together or not
at all: both are the parsed groups of the coordinate-pattern match of the
first matching meta `content` string, after which scanning stops; in
particular one is present exactly when the other is. -/
theorem location_lat_lng_together (soup : Node) :
    ((extract_location soup).latitude.isSome ↔
      (extract_location soup).longitude.isSome) ∧
    (extract_location soup).latitude =
      ((metaContents soup).find? (fun c => (coordSearch c.data).isSome)).bind
        (fun c => (coordSearch c.data).map (fun g => parseDec g.1)) ∧
    (extract_location soup).longitude =
      ((metaContents soup).find? (fun c => (coordSearch c.data).isSome)).bind
        (fun c => (coordSearch c.data).map (fun g => parseDec g.2)) := by
  cases hfind : (metaContents soup).find? (fun c => (coordSearch c.data).isSome) with
  | none => simp [extract_location, firstCoordIn_eq, hfind]
  | some c =>
    cases hcs : coordSearch c.data with
    | none =>
      have hp := List.find?_some hfind
      simp [hcs] at hp
    | some g => simp [extract_location, firstCoordIn_eq, hfind, hcs]

/-- C8 witness: on a page with two coordinate-bearing meta tags, both fields
are present and equal to the parse of the first tag's groups. -/
theorem location_lat_lng_together_witness :
    (extract_location coordsDoc).latitude.isSome = true ∧
      (extract_location coordsDoc).longitude.isSome = true :=
  ⟨by decide, by decide⟩

/-- C9: calling `find_routes_from_area` with `max_routes = 0` applies no
truncation at all — integer truthiness makes 0 behave exactly like `None`. -/
theorem max_routes_zero_no_limit (fetch : String → Option Node) (area : String) :
    find_routes_from_area fetch area (some 0) =
      find_routes_from_area fetch area none := by
  unfold find_routes_from_area
  cases fetch area with
  | none => rfl
  | some soup => simp

/-- C10: `save_to_csv` on an empty route list creates no file at all — not
even a header row — while on any non-empty list it writes the header row
plus exactly one row per route. -/
theorem save_csv_empty_no_file :
    (∀ fn, save_to_csv [] fn = none) ∧
    (∀ fn (r : Route) (rs : List Route), ∃ f : CsvFile,
      save_to_csv (r :: rs) fn = some (fn, f) ∧ f.header = fieldnames ∧
      f.rows.length = rs.length + 1) := by
  constructor
  · intro fn; rfl
  · intro fn r rs
    refine ⟨⟨fieldnames, (r :: rs).map csvRow⟩, ?_, rfl, ?_⟩
    · simp [save_to_csv]
    · simp

end Scraper
